import Mathlib

/-
  Verification development for the chatbot server (Express + AI-SDK demo).

  The definitions below are a shallow embedding, translated directly from the
  JavaScript sources:
    - src/server/utils/piiFilter.js        (redactPII, redactPIIFromObject)
    - src/server/index.js                  (processToolCalls, APPROVAL)
    - src/unnamed/part_000                 (processToolCalls, gateway variant)
    - src/unnamed/part_002                 (CommercetoolsMCPClient.connect)
    - src/client/src/App.js               (pendingToolCallConfirmation)

  JavaScript regular expressions are embedded by a small backtracking
  matcher: a pattern is a function from a scan state (previous character +
  remaining input) to the list of possible successor states in the order the
  JS backtracking engine would try them, so the head of the list of complete
  matches is exactly the match JS would produce.
-/

namespace Chatbot

/-! ## Character classes used by the JS regexes in piiFilter.js -/

/-- ASCII digit, the JS class `\d`. -/
def isDigitA (c : Char) : Bool := decide ('0' ≤ c ∧ c ≤ '9')

/-- ASCII upper-case letter, the JS class `[A-Z]`. -/
def isUpperA (c : Char) : Bool := decide ('A' ≤ c ∧ c ≤ 'Z')

/-- ASCII lower-case letter, the JS class `[a-z]`. -/
def isLowerA (c : Char) : Bool := decide ('a' ≤ c ∧ c ≤ 'z')

/-- ASCII letter, the JS class `[A-Za-z]`. -/
def isAlphaA (c : Char) : Bool := isUpperA c || isLowerA c

/-- JS word character `\w`, namely `[A-Za-z0-9_]`; used by `\b`. -/
def isWordChar (c : Char) : Bool := isAlphaA c || isDigitA c || c = '_'

/-- JS whitespace `\s` restricted to the ASCII whitespace characters. -/
def isSpaceJS (c : Char) : Bool :=
  c = ' ' || c = '\t' || c = '\n' || c = '\r' || c = '\x0b' || c = '\x0c'

/-- The class `[A-Za-z0-9._%+-]` of the email local part. -/
def isEmailLocal (c : Char) : Bool :=
  isAlphaA c || isDigitA c || c = '.' || c = '_' || c = '%' || c = '+' || c = '-'

/-- The class `[A-Za-z0-9.-]` of the email domain part. -/
def isEmailDomain (c : Char) : Bool := isAlphaA c || isDigitA c || c = '.' || c = '-'

/-- The class `[A-Z|a-z]` of the email top-level domain (the source class
literally contains the bar character). -/
def isTldChar (c : Char) : Bool := isAlphaA c || c = '|'

/-- The class `[-. ]` used as a separator in the phone and card patterns. -/
def isSepChar (c : Char) : Bool := c = '-' || c = '.' || c = ' '

/-- The class `[a-zA-Z0-9]` used in the URL pattern. -/
def isAlnum (c : Char) : Bool := isAlphaA c || isDigitA c

/-- The class `[a-zA-Z0-9-]` used in the URL pattern. -/
def isAlnumDash (c : Char) : Bool := isAlnum c || c = '-'

/-- The class `[^\s]` used in the URL pattern. -/
def isNotSpace (c : Char) : Bool := !isSpaceJS c

/-! ## A small backtracking regex engine

A scan state records the previously consumed character (needed for the JS
zero-width assertions `\b` and `^`) and the remaining input.  A pattern maps
a state to all successor states in backtracking preference order. -/

/-- Scan state of the matcher: last consumed character and remaining input. -/
structure RxState where
  prev : Option Char
  rest : List Char
  deriving Repr, DecidableEq

/-- A pattern: all successor states in JS backtracking preference order. -/
def Rx : Type := RxState → List RxState

/-- The empty pattern (matches zero characters). -/
def rEps : Rx := fun s => [s]

/-- Match one character satisfying a class predicate. -/
def rChar (p : Char → Bool) : Rx := fun s =>
  match s.rest with
  | [] => []
  | c :: cs => if p c then [⟨some c, cs⟩] else []

/-- Match one literal character. -/
def rLit (c : Char) : Rx := rChar (· = c)

/-- Sequencing of two patterns. -/
def rSeq (a b : Rx) : Rx := fun s => (a s).flatMap b

/-- Ordered alternation: the left pattern is preferred, as in JS `|`. -/
def rAlt (a b : Rx) : Rx := fun s => a s ++ b s

/-- Greedy option `?`: first try to match, then the empty match. -/
def rOpt (a : Rx) : Rx := rAlt a rEps

/-- Greedy repetition with explicit fuel; longest repetitions are preferred. -/
def rManyFuel (a : Rx) : Nat → Rx
  | 0 => rEps
  | n + 1 => rAlt (rSeq a (rManyFuel a n)) rEps

/-- Greedy `*`: fuel is taken from the remaining input length, which bounds
every repetition of a pattern that consumes at least one character. -/
def rMany (a : Rx) : Rx := fun s => rManyFuel a s.rest.length s

/-- Greedy `+`. -/
def rMany1 (a : Rx) : Rx := rSeq a (rMany a)

/-- Exactly `n` repetitions, the JS quantifier `{n}`. -/
def rRep (a : Rx) : Nat → Rx
  | 0 => rEps
  | n + 1 => rSeq a (rRep a n)

/-- At most `n` repetitions, greedy. -/
def rUpTo (a : Rx) : Nat → Rx
  | 0 => rEps
  | n + 1 => rAlt (rSeq a (rUpTo a n)) rEps

/-- The JS quantifier `{lo,hi}`, greedy. -/
def rRange (a : Rx) (lo hi : Nat) : Rx := rSeq (rRep a lo) (rUpTo a (hi - lo))

/-- The JS quantifier `{lo,}`, greedy. -/
def rAtLeast (a : Rx) (lo : Nat) : Rx := rSeq (rRep a lo) (rMany a)

/-- Truth of the word-character predicate at an optional character; positions
outside the string count as non-word, as in JS. -/
def isWordOpt : Option Char → Bool
  | none => false
  | some c => isWordChar c

/-- The JS word-boundary assertion `\b`. -/
def rBound : Rx := fun s =>
  if isWordOpt s.prev != isWordOpt s.rest.head? then [s] else []

/-- The JS assertion `^` (no multiline flag in the source patterns). -/
def rStart : Rx := fun s => if s.prev.isNone then [s] else []

/-- The JS assertion `$`. -/
def rEnd : Rx := fun s => if s.rest.isEmpty then [s] else []

/-- Match a literal string. -/
def rStr (t : String) : Rx := t.toList.foldr (fun c acc => rSeq (rLit c) acc) rEps

/-- The JS negative lookahead `(?!t)` for a literal `t`. -/
def rNotAheadStr (t : String) : Rx := fun s =>
  if s.rest.take t.length = t.toList then [] else [s]

/-- Run a pattern at the head of the input; on success return the number of
consumed characters together with the state after the match.  The head of the
successor list is the match the JS backtracking engine prefers. -/
def matchAt (p : Rx) (prev : Option Char) (cs : List Char) : Option (Nat × RxState) :=
  match p ⟨prev, cs⟩ with
  | [] => none
  | st :: _ => some (cs.length - st.rest.length, st)

/-- One global scan, mirroring the JS `while ((match = pattern.exec(text)))`
loop with the `/g` flag: after a match the scan resumes at the end of the
match, otherwise it advances one character.  Returns the raw spans
`(start, stop)` of all matches. -/
def scanFuel (p : Rx) : Nat → Option Char → List Char → Nat → List (Nat × Nat)
  | 0, _, _, _ => []
  | fuel + 1, prev, cs, i =>
    match matchAt p prev cs with
    | some (n, st) =>
      if n = 0 then
        match cs with
        | [] => []
        | c :: rest => scanFuel p fuel (some c) rest (i + 1)
      else
        (i, i + n) :: scanFuel p fuel st.prev st.rest (i + n)
    | none =>
      match cs with
      | [] => []
      | c :: rest => scanFuel p fuel (some c) rest (i + 1)

/-- All raw match spans of a pattern over an input. -/
def findSpans (p : Rx) (cs : List Char) : List (Nat × Nat) :=
  scanFuel p (cs.length + 1) none cs 0

/-! ## The eight PII patterns of piiFilter.js -/

/-- `\b[A-Za-z0-9._%+-]+@[A-Za-z0-9.-]+\.[A-Z|a-z]{2,}\b` -/
def emailPat : Rx :=
  rSeq rBound (rSeq (rMany1 (rChar isEmailLocal)) (rSeq (rLit '@')
    (rSeq (rMany1 (rChar isEmailDomain)) (rSeq (rLit '.')
      (rSeq (rAtLeast (rChar isTldChar) 2) rBound)))))

/-- `(?:\+\d{1,3}[-. ]?)?\(?\d{3}\)?[-. ]?\d{3}[-. ]?\d{4}` -/
def phonePat : Rx :=
  rSeq (rOpt (rSeq (rLit '+') (rSeq (rRange (rChar isDigitA) 1 3) (rOpt (rChar isSepChar)))))
    (rSeq (rOpt (rLit '(')) (rSeq (rRep (rChar isDigitA) 3) (rSeq (rOpt (rLit ')'))
      (rSeq (rOpt (rChar isSepChar)) (rSeq (rRep (rChar isDigitA) 3)
        (rSeq (rOpt (rChar isSepChar)) (rRep (rChar isDigitA) 4)))))))

/-- `\b\d{4}[-. ]?\d{4}[-. ]?\d{4}[-. ]?\d{4}\b` -/
def creditCardPat : Rx :=
  rSeq rBound (rSeq (rRep (rChar isDigitA) 4) (rSeq (rOpt (rChar isSepChar))
    (rSeq (rRep (rChar isDigitA) 4) (rSeq (rOpt (rChar isSepChar))
      (rSeq (rRep (rChar isDigitA) 4) (rSeq (rOpt (rChar isSepChar))
        (rSeq (rRep (rChar isDigitA) 4) rBound)))))))

/-- `\b\d{3}[-]?\d{2}[-]?\d{4}\b` -/
def ssnPat : Rx :=
  rSeq rBound (rSeq (rRep (rChar isDigitA) 3) (rSeq (rOpt (rLit '-'))
    (rSeq (rRep (rChar isDigitA) 2) (rSeq (rOpt (rLit '-'))
      (rSeq (rRep (rChar isDigitA) 4) rBound)))))

/-- `\b\d{1,3}\.\d{1,3}\.\d{1,3}\.\d{1,3}\b` -/
def ipPat : Rx :=
  rSeq rBound (rSeq (rRange (rChar isDigitA) 1 3) (rSeq (rLit '.')
    (rSeq (rRange (rChar isDigitA) 1 3) (rSeq (rLit '.')
      (rSeq (rRange (rChar isDigitA) 1 3) (rSeq (rLit '.')
        (rSeq (rRange (rChar isDigitA) 1 3) rBound)))))))

/-- `https?://`, shared prefix of the URL branches. -/
def httpPrefix : Rx := rSeq (rStr "http") (rSeq (rOpt (rLit 's')) (rStr "://"))

/-- `(?:www\.|(?!www))` of the URL pattern. -/
def wwwOrNot : Rx := rAlt (rStr "www.") (rNotAheadStr "www")

/-- `[a-zA-Z0-9][a-zA-Z0-9-]+[a-zA-Z0-9]` of the URL pattern. -/
def urlHostMid : Rx :=
  rSeq (rChar isAlnum) (rSeq (rMany1 (rChar isAlnumDash)) (rChar isAlnum))

/-- `\.[^\s]{2,}`, the tail of each URL branch. -/
def urlTail : Rx := rSeq (rLit '.') (rAtLeast (rChar isNotSpace) 2)

/-- The URL pattern, an ordered alternation of its four source branches. -/
def urlPat : Rx :=
  rAlt (rSeq httpPrefix (rSeq wwwOrNot (rSeq urlHostMid urlTail)))
    (rAlt (rSeq (rStr "www.") (rSeq urlHostMid urlTail))
      (rAlt (rSeq httpPrefix (rSeq wwwOrNot (rSeq (rMany1 (rChar isAlnum)) urlTail)))
        (rSeq (rStr "www.") (rSeq (rMany1 (rChar isAlnum)) urlTail))))

/-- `[A-Z][a-z]+`, one capitalized word. -/
def capWord : Rx := rSeq (rChar isUpperA) (rMany1 (rChar isLowerA))

/-- `\s+` -/
def spaces1 : Rx := rMany1 (rChar isSpaceJS)

/-- `\s*` -/
def spacesStar : Rx := rMany (rChar isSpaceJS)

/-- `(?:^|\s)[A-Z][a-z]+(?:\s+[A-Z][a-z]+)+(?:$|\s|:)` -/
def namePat : Rx :=
  rSeq (rAlt rStart (rChar isSpaceJS)) (rSeq capWord
    (rSeq (rMany1 (rSeq spaces1 capWord))
      (rAlt rEnd (rAlt (rChar isSpaceJS) (rLit ':')))))

/-- The street-suffix alternation of the address pattern, in source order. -/
def streetSuffix : Rx :=
  [ "Street", "St", "Avenue", "Ave", "Road", "Rd", "Boulevard", "Blvd",
    "Lane", "Ln", "Drive", "Dr", "Circle", "Cir", "Court", "Ct",
    "Place", "Pl", "Square", "Sq", "Highway", "Hwy", "Parkway", "Pkwy"
  ].foldr (fun t acc => rAlt (rStr t) acc) (fun _ => [])

/-- `,\s*[A-Z][a-z]+(?:\s+[A-Z][a-z]+)*,\s*[A-Z]{2}\s*\d{5}(?:-\d{4})?`,
the mandatory city/state/ZIP group of the address pattern. -/
def cityStateZip : Rx :=
  rSeq (rLit ',') (rSeq spacesStar (rSeq capWord (rSeq (rMany (rSeq spaces1 capWord))
    (rSeq (rLit ',') (rSeq spacesStar (rSeq (rRep (rChar isUpperA) 2)
      (rSeq spacesStar (rSeq (rRep (rChar isDigitA) 5)
        (rOpt (rSeq (rLit '-') (rRep (rChar isDigitA) 4)))))))))))

/-- `\b\d+\s+[A-Z][a-z]+(?:\s+[A-Z][a-z]+)*\s+(?:Street|...|Pkwy)(?:,...)\b` -/
def addressPat : Rx :=
  rSeq rBound (rSeq (rMany1 (rChar isDigitA)) (rSeq spaces1 (rSeq capWord
    (rSeq (rMany (rSeq spaces1 capWord)) (rSeq spaces1 (rSeq streetSuffix
      (rSeq cityStateZip rBound)))))))

/-! ## redactPII -/

/-- A committed match: the replaced span (after the whitespace/colon
adjustment of piiFilter.js) and the replacement text. -/
structure PMatch where
  mstart : Nat
  mstop : Nat
  repl : List Char
  deriving Repr, DecidableEq

/-- Length of the leading whitespace run of a list (JS `match[0].match(/^\s+/)`). -/
def leadSpaces (cs : List Char) : Nat := (cs.takeWhile isSpaceJS).length

/-- Length of the trailing whitespace run (JS `match[0].match(/\s+$/)`). -/
def trailSpaces (cs : List Char) : Nat := (cs.reverse.takeWhile isSpaceJS).length

/-- Build the committed match for a raw span, mirroring the preSpace /
postSpace / postColon adjustment in redactPII. -/
def toPMatch (cs : List Char) (placeholder : List Char) (span : Nat × Nat) : PMatch :=
  let sub := (cs.drop span.1).take (span.2 - span.1)
  let pre := leadSpaces sub
  let postColon := if sub.getLast? = some ':' then 1 else 0
  let post := trailSpaces sub
  { mstart := span.1 + pre
    mstop := span.2 - post - postColon
    repl := placeholder ++ (if sub.getLast? = some ':' then [':'] else []) }

/-- The ordered pattern list of redactPII with the replacement placeholders:
address, email, phone, creditCard, ssn, ip, url, name. -/
def piiRules : List (Rx × List Char) :=
  [ (addressPat, "[ADDRESS]".toList), (emailPat, "[EMAIL]".toList),
    (phonePat, "[PHONE]".toList), (creditCardPat, "[CREDIT_CARD]".toList),
    (ssnPat, "[SSN]".toList), (ipPat, "[IP_ADDRESS]".toList),
    (urlPat, "[URL]".toList), (namePat, "[NAME]".toList) ]

/-- All committed matches, in the push order of the source: grouped by
pattern in `piiRules` order, within one pattern by ascending position. -/
def collectMatches (cs : List Char) : List PMatch :=
  piiRules.flatMap (fun rule => (findSpans rule.1 cs).map (toPMatch cs rule.2))

/-- Stable insertion of a match into a list sorted by start descending; an
incoming match goes after earlier matches with the same start, which is the
behaviour of the stable JS `sort((a, b) => b.start - a.start)`. -/
def insertByStartDesc (m : PMatch) : List PMatch → List PMatch
  | [] => [m]
  | x :: xs => if m.mstart > x.mstart then m :: x :: xs else x :: insertByStartDesc m xs

/-- Stable sort by start descending (JS `matches.sort((a, b) => b.start - a.start)`). -/
def sortByStartDesc (l : List PMatch) : List PMatch :=
  l.foldl (fun acc m => insertByStartDesc m acc) []

/-- One splice step: `text.slice(0, start) + replacement + text.slice(end)`.
As in the source, the indices refer to the original text but the splice is
performed on the current (already partially replaced) text. -/
def applyMatch (cs : List Char) (m : PMatch) : List Char :=
  cs.take m.mstart ++ m.repl ++ cs.drop m.mstop

/-- redactPII of piiFilter.js on the character list of the input. -/
def redactPIIChars (cs : List Char) : List Char :=
  (sortByStartDesc (collectMatches cs)).foldl applyMatch cs

/-- `redactPII(text)` of src/server/utils/piiFilter.js for string input
(non-string input is returned unchanged by the source and is handled at the
`JsVal` level by `redactPIIFromObject`). -/
def redactPII (s : String) : String := (redactPIIChars s.toList).asString

/-! ## JSON-like values and redactPIIFromObject -/

/-- A JavaScript value as far as the PII filter distinguishes them. -/
inductive JsVal where
  | str : String → JsVal
  | num : Int → JsVal
  | bool : Bool → JsVal
  | null : JsVal
  | arr : List JsVal → JsVal
  | obj : List (String × JsVal) → JsVal
  deriving Repr

mutual

/-- `redactPIIFromObject(obj)` of piiFilter.js.  The source first returns any
value `v` with `!v || typeof v !== "object"` unchanged (strings, numbers,
booleans, null), maps itself over arrays, and walks the entries of plain
objects; an entry value that is a string is passed to `redactPII`, an entry
value of JS type "object" (array, object, or null) is recursed into, and any
other entry value is kept. -/
def redactPIIFromObject : JsVal → JsVal
  | .str s => .str s
  | .num n => .num n
  | .bool b => .bool b
  | .null => .null
  | .arr items => .arr (redactPIIArr items)
  | .obj kvs => .obj (redactPIIObj kvs)

/-- `obj.map((item) => redactPIIFromObject(item))` of the array branch. -/
def redactPIIArr : List JsVal → List JsVal
  | [] => []
  | v :: vs => redactPIIFromObject v :: redactPIIArr vs

/-- The `for (const [key, value] of Object.entries(obj))` loop of the object
branch of redactPIIFromObject. -/
def redactPIIObj : List (String × JsVal) → List (String × JsVal)
  | [] => []
  | (k, .str s) :: kvs => (k, .str (redactPII s)) :: redactPIIObj kvs
  | (k, .num n) :: kvs => (k, .num n) :: redactPIIObj kvs
  | (k, .bool b) :: kvs => (k, .bool b) :: redactPIIObj kvs
  | (k, v) :: kvs => (k, redactPIIFromObject v) :: redactPIIObj kvs

end

/-! ## Approval sentinels and the HITL data model (src/server/index.js) -/

namespace APPROVAL

/-- `APPROVAL.YES` of src/server/index.js. -/
def YES : String := "Yes, confirmed."

/-- `APPROVAL.NO` of src/server/index.js. -/
def NO : String := "No, denied."

end APPROVAL

/-- The tool-call arguments that the executors of src/server/index.js read
(`input.city`, `input.to`, `input.subject`, `input.body`). -/
structure ToolInput where
  city : String := ""
  «to» : String := ""
  subject : String := ""
  body : String := ""
  deriving Repr, DecidableEq

/-- A ToolPart of a UI message. -/
structure ToolPart where
  toolName : String
  toolCallId : String
  state : String
  input : ToolInput
  output : Option String
  deriving Repr, DecidableEq

/-- A message part: plain text, or a tool part (`isToolUIPart`). -/
inductive Part where
  | text : String → Part
  | tool : ToolPart → Part
  deriving Repr, DecidableEq

/-- A UI message; `parts` is optional because processToolCalls guards on
`!lastMessage.parts` (a message without a parts field). -/
structure Message where
  role : String
  parts : Option (List Part)
  deriving Repr, DecidableEq

/-- A `writer.write({type: "tool-output-available", toolCallId, output})`
event; the constant `type` field is the same for every event and is not
modelled. -/
structure ToolOutputEvent where
  toolCallId : String
  output : String
  deriving Repr, DecidableEq

/-- Environment of processToolCalls: the two `Math.random()` draws of the
weather executor (an index below 5 and a temperature draw below 30) and the
MCP tool table (`mcpTools` and `mcpClient.callTool`, with a thrown error
modelled as `Except.error`). -/
structure ExecEnv where
  weatherIdx : Nat
  tempDraw : Nat
  mcpToolNames : List String
  mcpCall : String → ToolInput → Except String String

/-- The `weatherConditions` array of the getWeatherInformation branch. -/
def weatherConditions : List String :=
  ["sunny", "cloudy", "rainy", "snowy", "partly cloudy"]

/-- The `switch (toolName)` of the approved branch of processToolCalls.
Returns the result string together with the list of executor invocations
(tool name and input) it performs; the denied and unknown-tool branches
invoke no executor. -/
def executeTool (env : ExecEnv) (toolName : String) (input : ToolInput) :
    String × List (String × ToolInput) :=
  match toolName with
  | "getWeatherInformation" =>
    ("The weather in " ++ input.city ++ " is currently " ++
       (weatherConditions.getD (env.weatherIdx % 5) "") ++
       ". Temperature is around " ++ toString (env.tempDraw % 30 + 10) ++ "°C.",
     [(toolName, input)])
  | "sendEmail" =>
    ("Email sent successfully to " ++ input.«to» ++ " with subject: \"" ++
       input.subject ++ "\"",
     [(toolName, input)])
  | _ =>
    if env.mcpToolNames.contains toolName then
      match env.mcpCall toolName input with
      | .ok r => (r, [(toolName, input)])
      | .error m => ("Error executing " ++ toolName ++ ": " ++ m, [(toolName, input)])
    else
      ("Error: Unknown tool", [])

/-- Whether the switch of processToolCalls can resolve a tool name to an
executor (a static case of the switch, or an entry of the MCP tool table). -/
def hasRegisteredExecutor (env : ExecEnv) (toolName : String) : Bool :=
  toolName == "getWeatherInformation" || toolName == "sendEmail" ||
    env.mcpToolNames.contains toolName

/-- Result of processing one part: the updated part, the lifecycle events
written, and the executor invocations performed. -/
structure PartResult where
  part : Part
  events : List ToolOutputEvent
  invocations : List (String × ToolInput)
  deriving Repr

/-- The body of the `lastMessage.parts.map` callback of processToolCalls
(src/server/index.js): text parts and tool parts whose state is not
`output-available` pass through; an `output-available` part whose output is
the YES sentinel is executed, the NO sentinel becomes the denial string, any
other output passes through; each resolved part writes one event. -/
def processPart (env : ExecEnv) (part : Part) : PartResult :=
  match part with
  | .text t => ⟨.text t, [], []⟩
  | .tool tp =>
    if tp.state ≠ "output-available" then ⟨.tool tp, [], []⟩
    else if tp.output = some APPROVAL.YES then
      let r := executeTool env tp.toolName tp.input
      ⟨.tool { tp with output := some r.1 }, [⟨tp.toolCallId, r.1⟩], r.2⟩
    else if tp.output = some APPROVAL.NO then
      let msg := "Error: User denied execution of " ++ tp.toolName
      ⟨.tool { tp with output := some msg }, [⟨tp.toolCallId, msg⟩], []⟩
    else ⟨.tool tp, [], []⟩

/-- `processToolCalls(messages, writer)` of src/server/index.js.  Returns the
updated conversation together with the written lifecycle events and the
executor invocations performed.  An empty conversation or a last message
without parts returns the conversation unchanged. -/
def processToolCalls (env : ExecEnv) (messages : List Message) :
    List Message × List ToolOutputEvent × List (String × ToolInput) :=
  match messages.getLast? with
  | none => (messages, [], [])
  | some lastMessage =>
    match lastMessage.parts with
    | none => (messages, [], [])
    | some parts =>
      let results := parts.map (processPart env)
      (messages.dropLast ++ [{ lastMessage with parts := some (results.map (·.part)) }],
       results.flatMap (·.events), results.flatMap (·.invocations))

/-! ## The pending-confirmation predicate (src/client/src/App.js) -/

/-- `TOOLS_REQUIRING_CONFIRMATION` of src/client/src/App.js. -/
def TOOLS_REQUIRING_CONFIRMATION : List String :=
  [ "read_cart", "create_cart", "replicate_cart", "update_cart",
    "read_category", "read_customer", "read_order", "read_inventory",
    "list_products", "create_product", "update_product", "read_project" ]

/-- JS truthiness of the optional output field: `!part.output` is true when
the output is absent or the empty string. -/
def jsTruthyOutput : Option String → Bool
  | none => false
  | some s => s != ""

/-- The per-part predicate inside pendingToolCallConfirmation:
`isToolUIPart(part) && part.state === "input-available" &&
TOOLS_REQUIRING_CONFIRMATION.includes(getToolName(part)) && !part.output`. -/
def pendingPartPred (part : Part) : Bool :=
  match part with
  | .text _ => false
  | .tool tp =>
    tp.state == "input-available" &&
      TOOLS_REQUIRING_CONFIRMATION.contains tp.toolName &&
      !jsTruthyOutput tp.output

/-- `pendingToolCallConfirmation` of src/client/src/App.js: some message has
some part satisfying the per-part predicate (a message without parts
contributes nothing, as with the optional chaining `m.parts?.some`). -/
def pendingToolCallConfirmation (messages : List Message) : Bool :=
  messages.any fun m =>
    match m.parts with
    | none => false
    | some ps => ps.any pendingPartPred

/-! ## The gateway variant of processToolCalls (src/unnamed/part_000)

This variant executes approved tool calls through commercetools agent tools
built from the credentials of the current request, stripping any
`credentials` field embedded in the tool input. -/

/-- The commercetools credential set carried by a request
(`commercetoolsCredentials`). -/
structure CtCredentials where
  authType : String
  clientId : String
  clientSecret : String
  accessToken : String
  projectKey : String
  authUrl : String
  apiUrl : String
  deriving Repr, DecidableEq

/-- A ToolPart of the gateway variant; the input is an object whose values
are arbitrary JS values (so that a `credentials` field can be embedded). -/
structure CtToolPart where
  toolName : String
  toolCallId : String
  state : String
  input : List (String × JsVal)
  output : Option String
  deriving Repr

/-- A message part of the gateway variant. -/
inductive CtPart where
  | text : String → CtPart
  | tool : CtToolPart → CtPart
  deriving Repr

/-- A message of the gateway variant. -/
structure CtMessage where
  role : String
  parts : Option (List CtPart)
  deriving Repr

/-- `const \x7b credentials, ...inputWithoutCredentials \x7d = part.input`:
drop the `credentials` property, keeping the remaining entries in order. -/
def removeCredentials (input : List (String × JsVal)) : List (String × JsVal) :=
  input.filter (fun kv => kv.1 ≠ "credentials")

/-- One recorded executor invocation of the gateway variant: which tool ran,
with which input object, under which credential set the agent was built. -/
structure CtInvocation where
  toolName : String
  input : List (String × JsVal)
  credentials : CtCredentials
  deriving Repr

/-- Environment of the gateway variant: `new CommercetoolsAgentEssentials(...)
.getTools()[toolName]`, built from the credentials of the request; `none`
models a missing or non-executable tool, and a thrown executor error is
`Except.error`. -/
structure CtEnv where
  agentExec : CtCredentials → String →
    Option (List (String × JsVal) → Except String String)

/-- Result of processing one part of the gateway variant. -/
structure CtPartResult where
  part : CtPart
  events : List ToolOutputEvent
  invocations : List CtInvocation
  deriving Repr

/-- The body of the `lastMessage.parts.map` callback of processToolCalls in
src/unnamed/part_000: on the YES sentinel the agent tool for the current
request credentials is looked up and executed with the input minus its
`credentials` field; a missing or non-executable tool and a thrown error
become error strings; the NO sentinel becomes the fixed denial string. -/
def processCtPart (env : CtEnv) (creds : CtCredentials) (part : CtPart) : CtPartResult :=
  match part with
  | .text t => ⟨.text t, [], []⟩
  | .tool tp =>
    if tp.state ≠ "output-available" then ⟨.tool tp, [], []⟩
    else if tp.output = some APPROVAL.YES then
      match env.agentExec creds tp.toolName with
      | some exec =>
        let inputWithoutCredentials := removeCredentials tp.input
        let r := match exec inputWithoutCredentials with
          | .ok r => r
          | .error m => "Error executing tool: " ++ m
        ⟨.tool { tp with output := some r }, [⟨tp.toolCallId, r⟩],
          [⟨tp.toolName, inputWithoutCredentials, creds⟩]⟩
      | none =>
        let r := "Error: Tool " ++ tp.toolName ++ " not found or not executable"
        ⟨.tool { tp with output := some r }, [⟨tp.toolCallId, r⟩], []⟩
    else if tp.output = some APPROVAL.NO then
      let r := "Error: User denied tool execution"
      ⟨.tool { tp with output := some r }, [⟨tp.toolCallId, r⟩], []⟩
    else ⟨.tool tp, [], []⟩

/-- `processToolCalls(messages, writer, commercetoolsCredentials)` of
src/unnamed/part_000. -/
def processToolCallsCt (env : CtEnv) (creds : CtCredentials) (messages : List CtMessage) :
    List CtMessage × List ToolOutputEvent × List CtInvocation :=
  match messages.getLast? with
  | none => (messages, [], [])
  | some lastMessage =>
    match lastMessage.parts with
    | none => (messages, [], [])
    | some parts =>
      let results := parts.map (processCtPart env creds)
      (messages.dropLast ++ [{ lastMessage with parts := some (results.map (·.part)) }],
       results.flatMap (·.events), results.flatMap (·.invocations))

/-! ## CommercetoolsMCPClient.connect (src/unnamed/part_002) -/

/-- A commercetools MCP credential set. -/
structure MCPCredentials where
  clientId : String
  clientSecret : String
  projectKey : String
  authUrl : String
  apiUrl : String
  deriving Repr, DecidableEq

/-- The mutable fields of a CommercetoolsMCPClient instance: whether
`this.client` is non-null, `this.tools`, `this.isConnected`,
`this.credentials` and `this.clientId`. -/
structure MCPClientState where
  clientOpen : Bool
  tools : Option (List String)
  connected : Bool
  credentials : Option MCPCredentials
  clientId : Option String
  deriving Repr, DecidableEq

/-- The freshly constructed client (`new CommercetoolsMCPClient()` with no
credentials argument). -/
def MCPClientState.init : MCPClientState :=
  ⟨false, none, false, none, none⟩

/-- Observable side effects on the underlying connection: closing the
transport in `disconnect`, and spawning/handshaking a new transport in
`connect`. -/
inductive MCPEvent where
  | disconnectUnderlying : MCPEvent
  | connectUnderlying : MCPCredentials → MCPEvent
  deriving Repr, DecidableEq

/-- Environment of the MCP client: the credential set available from
`process.env` (none when a required variable is missing), the underlying
client creation (`experimental_createMCPClient`) and the tool listing
(`this.client.tools()`), each with thrown errors as `Except.error`. -/
structure MCPEnv where
  envCredentials : Option MCPCredentials
  createClient : MCPCredentials → Except String Unit
  listTools : MCPCredentials → Except String (List String)

/-- `this.clientId === creds?.clientId` under JS strict equality: `null` and
`undefined` are distinct, so the comparison is true only when both sides are
present and equal. -/
def jsEqClientId : Option String → Option MCPCredentials → Bool
  | some a, some c => a == c.clientId
  | _, _ => false

/-- The first falsy field of a provided credential set, in the order of the
`requiredFields` loop of connect; `none` when all fields are present. -/
def firstMissingField (c : MCPCredentials) : Option String :=
  if c.clientId = "" then some "clientId"
  else if c.clientSecret = "" then some "clientSecret"
  else if c.projectKey = "" then some "projectKey"
  else if c.authUrl = "" then some "authUrl"
  else if c.apiUrl = "" then some "apiUrl"
  else none

/-- `disconnect()` of CommercetoolsMCPClient: closes the underlying client
when one exists and clears client, tools, isConnected and clientId (but not
credentials). -/
def MCPClientState.disconnect (st : MCPClientState) : MCPClientState × List MCPEvent :=
  (⟨false, none, false, st.credentials, none⟩,
   if st.clientOpen then [.disconnectUnderlying] else [])

/-- The tail of `connect` once a concrete credential set has been settled:
`this.credentials = creds`, create the underlying client, fetch the tools,
then mark the instance connected; on a thrown error the catch block sets
`isConnected = false` and `clientId = null` and rethrows. -/
def MCPClientState.connectWith (env : MCPEnv) (st : MCPClientState)
    (evs : List MCPEvent) (c : MCPCredentials) :
    MCPClientState × List MCPEvent × Except String Unit :=
  match env.createClient c with
  | .error e =>
    ({ st with credentials := some c, connected := false, clientId := none },
     evs ++ [.connectUnderlying c], .error e)
  | .ok _ =>
    match env.listTools c with
    | .ok ts =>
      (⟨true, some ts, true, some c, some c.clientId⟩,
       evs ++ [.connectUnderlying c], .ok ())
    | .error e =>
      (⟨true, st.tools, false, some c, none⟩,
       evs ++ [.connectUnderlying c], .error e)

/-- `connect(credentials)` of CommercetoolsMCPClient (src/unnamed/part_002):
`creds = credentials || this.credentials`; if connected with
`this.clientId === creds?.clientId` return immediately; if connected with a
different clientId, disconnect first; then validate (environment fallback
when no credentials are available) and establish the connection. -/
def MCPClientState.connect (env : MCPEnv) (st : MCPClientState)
    (credentials : Option MCPCredentials) :
    MCPClientState × List MCPEvent × Except String Unit :=
  let creds := credentials.or st.credentials
  if st.connected && jsEqClientId st.clientId creds then (st, [], .ok ())
  else
    let step := if st.connected && !jsEqClientId st.clientId creds then
        st.disconnect
      else (st, [])
    match creds with
    | none =>
      match env.envCredentials with
      | none =>
        ({ step.1 with connected := false, clientId := none }, step.2,
         .error "Missing required environment variable")
      | some ec => MCPClientState.connectWith env step.1 step.2 ec
    | some c =>
      match firstMissingField c with
      | some f =>
        ({ step.1 with connected := false, clientId := none }, step.2,
         .error ("Missing required credential: " ++ f))
      | none => MCPClientState.connectWith env step.1 step.2 c

/-! ## Concrete instances used by witnesses and counterexamples -/

/-- An approved tool part in state `input-available` (as the claim states it),
for a tool with a registered executor. -/
def tpC1 : ToolPart :=
  ⟨"sendEmail", "call-1", "input-available",
    {«to» := "bob@example.com", subject := "Hi"}, some APPROVAL.YES⟩

/-- The conversation whose last message carries that part. -/
def convC1 : List Message := [Message.mk "assistant" (some [Part.tool tpC1])]

/-- Two tool inputs are credential-equivalent when they agree after the
`credentials` property is dropped. -/
def CtInputsEquiv (i₁ i₂ : List (String × JsVal)) : Prop :=
  removeCredentials i₁ = removeCredentials i₂

/-- Two parts that differ at most in the credential-shaped fields embedded
in a tool input. -/
inductive CtPartEquiv : CtPart → CtPart → Prop where
  | text (t : String) : CtPartEquiv (.text t) (.text t)
  | tool (tp₁ tp₂ : CtToolPart) (hname : tp₁.toolName = tp₂.toolName)
      (hid : tp₁.toolCallId = tp₂.toolCallId) (hstate : tp₁.state = tp₂.state)
      (hout : tp₁.output = tp₂.output) (hin : CtInputsEquiv tp₁.input tp₂.input) :
      CtPartEquiv (.tool tp₁) (.tool tp₂)

/-- A gateway environment with one executable tool. -/
def ctEnvW : CtEnv :=
  ⟨fun _ name => if name = "read_cart" then some (fun _ => .ok "cart read") else none⟩

/-- The credential set of the current request in the C4 witness. -/
def ctCredsW : CtCredentials :=
  ⟨"client_credentials", "cid-1", "csecret-1", "", "proj-1",
    "https://auth.example.com", "https://api.example.com"⟩

/-- An approved read_cart part whose input embeds one spoofed credential
object. -/
def ctPartA : CtPart :=
  .tool ⟨"read_cart", "call-9", "output-available",
    [("cartId", .str "c1"),
     ("credentials", .obj [("clientId", .str "model-spoofed")])], some APPROVAL.YES⟩

/-- The same part with a differently spoofed credentials field. -/
def ctPartB : CtPart :=
  .tool ⟨"read_cart", "call-9", "output-available",
    [("cartId", .str "c1"), ("credentials", .str "other-spoof")], some APPROVAL.YES⟩

/-- An MCP environment whose underlying connection always succeeds and
serves one tool. -/
def mcpEnvW : MCPEnv := ⟨none, fun _ => .ok (), fun _ => .ok ["products.read"]⟩

/-- A first commercetools credential set. -/
def credsA : MCPCredentials :=
  ⟨"client-1", "secret-1", "project-1",
    "https://auth.example.com", "https://api.example.com"⟩

/-- The same clientId but a different project: a different credential
identity tuple. -/
def credsB : MCPCredentials := { credsA with projectKey := "project-2" }

/-- A different clientId. -/
def credsC : MCPCredentials := { credsA with clientId := "client-2" }

/-- The state reached by connecting the fresh client with credsA. -/
def stConnectedA : MCPClientState :=
  ⟨true, some ["products.read"], true, some credsA, some "client-1"⟩

/-! ## Helper lemmas about processToolCalls -/

/-- The toolCallId of a part, when it is a tool part. -/
def partToolCallId : Part → Option String
  | .text _ => none
  | .tool tp => some tp.toolCallId

/-- A concrete environment with no MCP tools, used to instantiate theorems. -/
def env0 : ExecEnv := ⟨0, 0, [], fun _ _ => .error "unavailable"⟩

theorem processPart_approved (env : ExecEnv) (tp : ToolPart)
    (hstate : tp.state = "output-available") (hout : tp.output = some APPROVAL.YES) :
    processPart env (.tool tp) =
      ⟨.tool { tp with output := some (executeTool env tp.toolName tp.input).1 },
        [⟨tp.toolCallId, (executeTool env tp.toolName tp.input).1⟩],
        (executeTool env tp.toolName tp.input).2⟩ := by
  simp [processPart, hstate, hout]

theorem processPart_denied (env : ExecEnv) (tp : ToolPart)
    (hstate : tp.state = "output-available") (hout : tp.output = some APPROVAL.NO) :
    processPart env (.tool tp) =
      ⟨.tool { tp with output := some ("Error: User denied execution of " ++ tp.toolName) },
        [⟨tp.toolCallId, "Error: User denied execution of " ++ tp.toolName⟩], []⟩ := by
  have hne : tp.output ≠ some APPROVAL.YES := by
    rw [hout]; intro h
    exact absurd (Option.some.inj h) (by decide)
  simp [processPart, hstate, hout, hne]
  exact fun h => absurd h (by decide)

theorem processPart_passthrough (env : ExecEnv) (tp : ToolPart)
    (hstate : tp.state = "output-available")
    (hyes : tp.output ≠ some APPROVAL.YES) (hno : tp.output ≠ some APPROVAL.NO) :
    processPart env (.tool tp) = ⟨.tool tp, [], []⟩ := by
  simp [processPart, hstate, hyes, hno]

theorem processPart_events_ids (env : ExecEnv) (p : Part) :
    ∀ e ∈ (processPart env p).events, partToolCallId p = some e.toolCallId := by
  intro e he
  cases p with
  | text t => simp [processPart] at he
  | tool tp =>
    simp only [processPart] at he
    split at he
    · simp at he
    · split at he
      · simp at he
        simp [partToolCallId, he]
      · split at he
        · simp at he
          simp [partToolCallId, he]
        · simp at he

/-- Parts in a resolved state pass through unchanged and produce no events
and no invocations. -/
theorem results_of_resolved (env : ExecEnv) (ps : List Part)
    (hres : ∀ tp, Part.tool tp ∈ ps →
      tp.state = "output-available" ∧
        tp.output ≠ some APPROVAL.YES ∧ tp.output ≠ some APPROVAL.NO) :
    (ps.map (processPart env)).map (·.part) = ps ∧
    (ps.map (processPart env)).flatMap (·.events) = [] ∧
    (ps.map (processPart env)).flatMap (·.invocations) = [] := by
  induction ps with
  | nil => simp
  | cons p ps ih =>
    have hp : processPart env p = ⟨p, [], []⟩ := by
      cases p with
      | text t => rfl
      | tool tp =>
        obtain ⟨h1, h2, h3⟩ := hres tp (List.mem_cons_self _ _)
        exact processPart_passthrough env tp h1 h2 h3
    have htail := ih (fun tp htp => hres tp (List.mem_cons_of_mem _ htp))
    simp [hp, htail.1, htail.2.1, htail.2.2]

/-- Events produced by parts whose toolCallId differs from `x` never survive
the filter for `x`. -/
theorem filter_events_of_other_parts (env : ExecEnv) (ps : List Part) (x : String)
    (h : ∀ p ∈ ps, partToolCallId p ≠ some x) :
    ((ps.map (processPart env)).flatMap (·.events)).filter
      (fun e => e.toolCallId == x) = [] := by
  induction ps with
  | nil => rfl
  | cons p ps ih =>
    rw [List.map_cons, List.flatMap_cons, List.filter_append]
    rw [ih (fun q hq => h q (List.mem_cons_of_mem _ hq))]
    rw [List.filter_eq_nil_iff.mpr, List.nil_append]
    intro e he
    have hid := processPart_events_ids env p e he
    have hx := h p (List.mem_cons_self _ _)
    simp only [beq_iff_eq]
    intro hcontra
    exact hx (hcontra ▸ hid)

/-! ## C2: idempotence on resolved conversations -/

/-- C2: for every conversation whose last message has parts all of whose
tool parts are in state `output-available` with an output that is neither
the approved sentinel nor the denied sentinel, processToolCalls returns the
conversation unchanged, writes no lifecycle event and performs no executor
invocation. -/
theorem processToolCalls_idempotent_on_resolved (env : ExecEnv)
    (pre : List Message) (last : Message) (ps : List Part)
    (hparts : last.parts = some ps)
    (hres : ∀ tp, Part.tool tp ∈ ps →
      tp.state = "output-available" ∧
        tp.output ≠ some APPROVAL.YES ∧ tp.output ≠ some APPROVAL.NO) :
    processToolCalls env (pre ++ [last]) = (pre ++ [last], [], []) := by
  obtain ⟨h1, h2, h3⟩ := results_of_resolved env ps hres
  cases last with
  | mk role parts =>
    simp only [Message.mk.injEq] at hparts ⊢
    simp only [processToolCalls, List.getLast?_concat, hparts]
    simp [List.dropLast_concat, h1, h2, h3]

/-- Witness for C2: a conversation with one resolved tool part is a fixed
point of processToolCalls. -/
theorem processToolCalls_idempotent_on_resolved_witness :
    (Message.mk "assistant" (some [Part.tool
        ⟨"sendEmail", "call-1", "output-available", {«to» := "bob@example.com"},
          some "Email sent successfully to bob@example.com with subject: \"\""⟩])).parts =
      some [Part.tool
        ⟨"sendEmail", "call-1", "output-available", {«to» := "bob@example.com"},
          some "Email sent successfully to bob@example.com with subject: \"\""⟩] ∧
    processToolCalls env0 ([] ++ [Message.mk "assistant" (some [Part.tool
        ⟨"sendEmail", "call-1", "output-available", {«to» := "bob@example.com"},
          some "Email sent successfully to bob@example.com with subject: \"\""⟩])]) =
      ([] ++ [Message.mk "assistant" (some [Part.tool
        ⟨"sendEmail", "call-1", "output-available", {«to» := "bob@example.com"},
          some "Email sent successfully to bob@example.com with subject: \"\""⟩])], [], []) := by
  refine ⟨rfl, processToolCalls_idempotent_on_resolved env0 [] _ _ rfl ?_⟩
  intro tp htp
  simp at htp
  subst htp
  refine ⟨rfl, ?_, ?_⟩ <;> decide

/-! ## C10: the empty-conversation and missing-parts frame -/

/-- C10: processToolCalls returns an empty conversation unchanged, and a
conversation whose last message has no parts field unchanged; in both cases
no lifecycle event is written and no executor invocation is performed. -/
theorem processToolCalls_frame (env : ExecEnv) :
    processToolCalls env [] = ([], [], []) ∧
    ∀ (pre : List Message) (last : Message), last.parts = none →
      processToolCalls env (pre ++ [last]) = (pre ++ [last], [], []) := by
  refine ⟨rfl, ?_⟩
  intro pre last h
  simp [processToolCalls, List.getLast?_concat, h]

/-- Witness for C10 at a concrete message without parts. -/
theorem processToolCalls_frame_witness :
    (Message.mk "user" none).parts = none ∧
    processToolCalls env0 ([] ++ [Message.mk "user" none]) =
      ([] ++ [Message.mk "user" none], [], []) :=
  ⟨rfl, (processToolCalls_frame env0).2 [] (Message.mk "user" none) rfl⟩

/-! ## C1: approved tool calls -/

/-- Counterexample to C1 as stated: a ToolPart in state `input-available`
whose output is the approved sentinel for a tool with a registered executor
is returned untouched by processToolCalls (its output is still the sentinel,
which is not the return value of the executor) and no lifecycle event is
emitted, because the source only processes parts whose state is
`output-available`. -/
theorem processToolCalls_input_available_counterexample :
    hasRegisteredExecutor env0 tpC1.toolName = true ∧
    processToolCalls env0 convC1 = (convC1, [], []) ∧
    (executeTool env0 tpC1.toolName tpC1.input).1 ≠ APPROVAL.YES := by
  refine ⟨by decide, rfl, by decide⟩

/-- C1 as amended: the part must be in state `output-available` (the state
in which the client deposits the approval sentinel).  Then processToolCalls
replaces its output by the return value of the executor applied to the
input of the part and, provided no other part of the message carries the
same toolCallId, exactly one lifecycle event is written for it. -/
theorem processToolCalls_approved (env : ExecEnv) (pre : List Message)
    (last : Message) (ps₁ ps₂ : List Part) (tp : ToolPart)
    (hparts : last.parts = some (ps₁ ++ Part.tool tp :: ps₂))
    (_hexec : hasRegisteredExecutor env tp.toolName = true)
    (hstate : tp.state = "output-available")
    (hout : tp.output = some APPROVAL.YES)
    (huniq : ∀ p ∈ ps₁ ++ ps₂, partToolCallId p ≠ some tp.toolCallId) :
    (processToolCalls env (pre ++ [last])).1 =
      pre ++ [{ last with
        parts := some
            (ps₁.map (fun p => (processPart env p).part) ++
              Part.tool { tp with
                output := some (executeTool env tp.toolName tp.input).1 } ::
              ps₂.map (fun p => (processPart env p).part)) }] ∧
    (processToolCalls env (pre ++ [last])).2.1.filter
        (fun e => e.toolCallId == tp.toolCallId) =
      [⟨tp.toolCallId, (executeTool env tp.toolName tp.input).1⟩] := by
  have h1 : ∀ p ∈ ps₁, partToolCallId p ≠ some tp.toolCallId :=
    fun p hp => huniq p (List.mem_append_left _ hp)
  have h2 : ∀ p ∈ ps₂, partToolCallId p ≠ some tp.toolCallId :=
    fun p hp => huniq p (List.mem_append_right _ hp)
  simp only [processToolCalls, List.getLast?_concat, hparts, List.dropLast_concat]
  rw [List.map_append, List.map_cons, processPart_approved env tp hstate hout]
  constructor
  · simp only [List.map_append, List.map_cons, List.map_map]
    rfl
  · rw [List.flatMap_append, List.flatMap_cons, List.filter_append, List.filter_append,
      filter_events_of_other_parts env ps₁ tp.toolCallId h1,
      filter_events_of_other_parts env ps₂ tp.toolCallId h2]
    simp

/-- Witness for the amended C1: a concrete approved sendEmail part in state
`output-available` is resolved to the executor result with one event. -/
theorem processToolCalls_approved_witness :
    (Message.mk "assistant" (some ([] ++ Part.tool
        ⟨"sendEmail", "call-1", "output-available",
          {«to» := "bob@example.com", subject := "Hi"}, some APPROVAL.YES⟩ :: []))).parts =
      some ([] ++ Part.tool
        ⟨"sendEmail", "call-1", "output-available",
          {«to» := "bob@example.com", subject := "Hi"}, some APPROVAL.YES⟩ :: []) ∧
    hasRegisteredExecutor env0 "sendEmail" = true ∧
    (processToolCalls env0 ([] ++ [Message.mk "assistant" (some ([] ++ Part.tool
        ⟨"sendEmail", "call-1", "output-available",
          {«to» := "bob@example.com", subject := "Hi"}, some APPROVAL.YES⟩ :: []))])).1 =
      [] ++ [{ Message.mk "assistant" (some ([] ++ Part.tool
        ⟨"sendEmail", "call-1", "output-available",
          {«to» := "bob@example.com", subject := "Hi"}, some APPROVAL.YES⟩ :: [])) with
        parts := some (([] : List Part).map (fun p => (processPart env0 p).part) ++
          Part.tool { (⟨"sendEmail", "call-1", "output-available",
            {«to» := "bob@example.com", subject := "Hi"}, some APPROVAL.YES⟩ : ToolPart) with
              output := some (executeTool env0 "sendEmail"
                {«to» := "bob@example.com", subject := "Hi"}).1 } ::
          ([] : List Part).map (fun p => (processPart env0 p).part)) }] ∧
    (processToolCalls env0 ([] ++ [Message.mk "assistant" (some ([] ++ Part.tool
        ⟨"sendEmail", "call-1", "output-available",
          {«to» := "bob@example.com", subject := "Hi"}, some APPROVAL.YES⟩ :: []))])).2.1.filter
        (fun e => e.toolCallId == "call-1") =
      [⟨"call-1", (executeTool env0 "sendEmail" {«to» := "bob@example.com", subject := "Hi"}).1⟩] := by
  refine ⟨rfl, by decide, ?_⟩
  exact processToolCalls_approved env0 [] _ [] [] _ rfl (by decide) rfl rfl (by simp)

/-! ## C5: denied tool calls -/

/-- C5: a ToolPart of the last message in state `output-available` whose
output is the denied sentinel has its output set to the denial string naming
the tool (`Error: User denied execution of <toolName>` in the source), one
lifecycle event is written for it, and it contributes no executor
invocation: the invocations of the run are exactly those of the other
parts. -/
theorem processToolCalls_denied (env : ExecEnv) (pre : List Message)
    (last : Message) (ps₁ ps₂ : List Part) (tp : ToolPart)
    (hparts : last.parts = some (ps₁ ++ Part.tool tp :: ps₂))
    (hstate : tp.state = "output-available")
    (hout : tp.output = some APPROVAL.NO) :
    processToolCalls env (pre ++ [last]) =
      (pre ++ [{ last with
        parts := some
            (ps₁.map (fun p => (processPart env p).part) ++
              Part.tool { tp with
                output := some ("Error: User denied execution of " ++ tp.toolName) } ::
              ps₂.map (fun p => (processPart env p).part)) }],
       (ps₁.map (processPart env)).flatMap (·.events) ++
         ⟨tp.toolCallId, "Error: User denied execution of " ++ tp.toolName⟩ ::
         (ps₂.map (processPart env)).flatMap (·.events),
       (ps₁.map (processPart env)).flatMap (·.invocations) ++
         (ps₂.map (processPart env)).flatMap (·.invocations)) := by
  simp only [processToolCalls, List.getLast?_concat, hparts, List.dropLast_concat]
  rw [List.map_append, List.map_cons, processPart_denied env tp hstate hout]
  simp only [List.map_append, List.map_cons, List.map_map, List.flatMap_append,
    List.flatMap_cons, List.singleton_append, List.cons_append, List.nil_append]
  rfl

/-- Witness for C5: a concrete denied getWeatherInformation part becomes the
denial string, one event is written, and no executor invocation happens. -/
theorem processToolCalls_denied_witness :
    (Message.mk "assistant" (some ([] ++ Part.tool
        ⟨"getWeatherInformation", "call-2", "output-available",
          {city := "Paris"}, some APPROVAL.NO⟩ :: []))).parts =
      some ([] ++ Part.tool
        ⟨"getWeatherInformation", "call-2", "output-available",
          {city := "Paris"}, some APPROVAL.NO⟩ :: []) ∧
    processToolCalls env0 ([] ++ [Message.mk "assistant" (some ([] ++ Part.tool
        ⟨"getWeatherInformation", "call-2", "output-available",
          {city := "Paris"}, some APPROVAL.NO⟩ :: []))]) =
      ([] ++ [{ Message.mk "assistant" (some ([] ++ Part.tool
          ⟨"getWeatherInformation", "call-2", "output-available",
            {city := "Paris"}, some APPROVAL.NO⟩ :: [])) with
        parts := some (([] : List Part).map (fun p => (processPart env0 p).part) ++
          Part.tool { (⟨"getWeatherInformation", "call-2", "output-available",
            {city := "Paris"}, some APPROVAL.NO⟩ : ToolPart) with
              output := some ("Error: User denied execution of " ++ "getWeatherInformation") } ::
          ([] : List Part).map (fun p => (processPart env0 p).part)) }],
       (([] : List Part).map (processPart env0)).flatMap (·.events) ++
         ⟨"call-2", "Error: User denied execution of " ++ "getWeatherInformation"⟩ ::
         (([] : List Part).map (processPart env0)).flatMap (·.events),
       (([] : List Part).map (processPart env0)).flatMap (·.invocations) ++
         (([] : List Part).map (processPart env0)).flatMap (·.invocations)) :=
  ⟨rfl, processToolCalls_denied env0 [] _ [] [] _ rfl rfl rfl⟩

/-! ## C6: the pending-confirmation predicate -/

/-- C6: a ToolPart satisfies the pending-confirmation predicate of the
client exactly when its tool name is in the confirmation-required set, its
state is `input-available`, and it carries no output; carrying no output is
the JS test `!part.output`, which holds for an absent output and for an
empty-string output. -/
theorem pendingPartPred_iff (tp : ToolPart) :
    pendingPartPred (.tool tp) = true ↔
      tp.toolName ∈ TOOLS_REQUIRING_CONFIRMATION ∧
        tp.state = "input-available" ∧
        (tp.output = none ∨ tp.output = some "") := by
  cases htp : tp.output with
  | none =>
    simp [pendingPartPred, jsTruthyOutput, htp, List.elem_iff, and_comm]
  | some s =>
    by_cases hs : s = ""
    · subst hs
      simp [pendingPartPred, jsTruthyOutput, htp, List.elem_iff, and_comm]
    · simp [pendingPartPred, jsTruthyOutput, htp, hs, List.elem_iff]

/-! ## C3 and C9: overlapping matches corrupt redactPII -/

/-- C3: on an input where a lower-priority SSN match (`62704-1234`) lies
inside a higher-priority address match, redactPII applies both replacements:
the SSN placeholder is spliced in first, and the address splice, computed
with offsets of the original string but applied to the already modified
string, then swallows the placeholder together with the unrelated trailing
text `" ok"`.  The higher-priority-only result would be `"[ADDRESS] ok"`. -/
theorem redactPII_overlap_double_replacement :
    redactPII "123 Main Street, Springfield, IL 62704-1234 ok" = "[ADDRESS]" ∧
    "[ADDRESS]" ≠ "[ADDRESS] ok" := by
  refine ⟨by decide, by decide⟩

/-- C9: redactPII is not idempotent.  On the input below the first pass
produces `"[ADDRESS]123-45-6789"`: the overlapping address/SSN splices
delete the five characters `" abcd"` that separated the address from the
trailing digits, so the second pass sees a fresh SSN-shaped substring at a
word boundary and rewrites it.  The input contains no placeholder-shaped
text. -/
theorem redactPII_not_idempotent :
    redactPII "123 Main Street, Springfield, IL 62704-1234 abcd123-45-6789" =
      "[ADDRESS]123-45-6789" ∧
    redactPII (redactPII "123 Main Street, Springfield, IL 62704-1234 abcd123-45-6789") =
      "[ADDRESS][SSN]" ∧
    redactPII (redactPII "123 Main Street, Springfield, IL 62704-1234 abcd123-45-6789") ≠
      redactPII "123 Main Street, Springfield, IL 62704-1234 abcd123-45-6789" := by
  refine ⟨by decide, by decide, by decide⟩

/-! ## C7: redactPIIFromObject on string leaves -/

/-- Counterexample to C7 as stated: a bare string argument is returned
unredacted by redactPIIFromObject (the `typeof obj !== "object"` guard), and
so is a string element of an array (the array branch maps
redactPIIFromObject itself over the items), even though redactPII would
rewrite the string. -/
theorem redactPIIFromObject_counterexample :
    redactPIIFromObject (JsVal.str "My name is John Smith") =
      JsVal.str "My name is John Smith" ∧
    redactPIIFromObject (JsVal.arr [JsVal.str "My name is John Smith"]) =
      JsVal.arr [JsVal.str "My name is John Smith"] ∧
    redactPII "My name is John Smith" = "My name is [NAME]" ∧
    "My name is John Smith" ≠ "My name is [NAME]" := by
  refine ⟨rfl, rfl, by decide, by decide⟩

/-- redactPIIArr is the elementwise map of redactPIIFromObject. -/
theorem redactPIIArr_eq_map (items : List JsVal) :
    redactPIIArr items = items.map redactPIIFromObject := by
  induction items with
  | nil => rfl
  | cons v vs ih => simp [redactPIIArr, ih]

/-- redactPIIObj keeps every key and rewrites only the values: a string
value through redactPII, a number or boolean value unchanged, and any other
value (null, array, object) through redactPIIFromObject. -/
theorem redactPIIObj_eq_map (kvs : List (String × JsVal)) :
    redactPIIObj kvs = kvs.map (fun kv => (kv.1,
      match kv.2 with
      | .str s => .str (redactPII s)
      | .num n => .num n
      | .bool b => .bool b
      | v => redactPIIFromObject v)) := by
  induction kvs with
  | nil => rfl
  | cons kv kvs ih =>
    obtain ⟨k, v⟩ := kv
    cases v <;> simp [redactPIIObj, ih]

/-- C7 as amended: redactPIIFromObject recurses through mappings and
sequences preserving keys and order; it applies redactPII exactly to the
string values of mapping entries; bare strings, string elements of
sequences, numbers, booleans and null pass through unchanged.  On the
spec example all object-valued string leaves are redacted. -/
theorem redactPIIFromObject_structure :
    (∀ s, redactPIIFromObject (.str s) = .str s) ∧
    (∀ n, redactPIIFromObject (.num n) = .num n) ∧
    (∀ b, redactPIIFromObject (.bool b) = .bool b) ∧
    redactPIIFromObject .null = .null ∧
    (∀ items, redactPIIFromObject (.arr items) = .arr (items.map redactPIIFromObject)) ∧
    (∀ kvs, redactPIIFromObject (.obj kvs) = .obj (kvs.map (fun kv => (kv.1,
      match kv.2 with
      | .str s => .str (redactPII s)
      | .num n => .num n
      | .bool b => .bool b
      | v => redactPIIFromObject v)))) ∧
    redactPIIFromObject (.obj [("a", .str "My name is John Smith"),
        ("b", .obj [("c", .str "call 123-456-7890"), ("d", .bool true)])]) =
      .obj [("a", .str "My name is [NAME]"),
        ("b", .obj [("c", .str "call [PHONE]"), ("d", .bool true)])] := by
  refine ⟨fun s => rfl, fun n => rfl, fun b => rfl, rfl, ?_, ?_, ?_⟩
  · intro items
    simp [redactPIIFromObject, redactPIIArr_eq_map]
  · intro kvs
    simp [redactPIIFromObject, redactPIIObj_eq_map]
  · have h1 : redactPII "My name is John Smith" = "My name is [NAME]" := by decide
    have h2 : redactPII "call 123-456-7890" = "call [PHONE]" := by decide
    simp [redactPIIFromObject, redactPIIObj, h1, h2]

/-! ## C4: credential stripping in the gateway variant -/

theorem processCtPart_equiv (env : CtEnv) (creds : CtCredentials)
    {p₁ p₂ : CtPart} (h : CtPartEquiv p₁ p₂) :
    (processCtPart env creds p₁).events = (processCtPart env creds p₂).events ∧
    (processCtPart env creds p₁).invocations = (processCtPart env creds p₂).invocations := by
  cases h with
  | text t => exact ⟨rfl, rfl⟩
  | tool tp₁ tp₂ hname hid hstate hout hin =>
    obtain ⟨n₁, id₁, st₁, in₁, out₁⟩ := tp₁
    obtain ⟨n₂, id₂, st₂, in₂, out₂⟩ := tp₂
    simp only [CtInputsEquiv] at hin
    simp only at hname hid hstate hout
    subst hname
    subst hid
    subst hstate
    subst hout
    by_cases h1 : st₁ = "output-available"
    · by_cases h2 : out₁ = some APPROVAL.YES
      · cases hx : env.agentExec creds n₁ with
        | none => simp [processCtPart, h1, h2, hx]
        | some exec => simp [processCtPart, h1, h2, hx, hin]
      · have hne : APPROVAL.NO ≠ APPROVAL.YES := by decide
        by_cases h3 : out₁ = some APPROVAL.NO
        · simp [processCtPart, h1, h2, h3, hne, hin]
        · simp [processCtPart, h1, h2, h3, hne, hin]
    · simp [processCtPart, h1]

theorem processCt_list_equiv (env : CtEnv) (creds : CtCredentials)
    {ps₁ ps₂ : List CtPart} (h : List.Forall₂ CtPartEquiv ps₁ ps₂) :
    (ps₁.map (processCtPart env creds)).flatMap (·.events) =
      (ps₂.map (processCtPart env creds)).flatMap (·.events) ∧
    (ps₁.map (processCtPart env creds)).flatMap (·.invocations) =
      (ps₂.map (processCtPart env creds)).flatMap (·.invocations) := by
  induction h with
  | nil => exact ⟨rfl, rfl⟩
  | cons hp _ ih =>
    obtain ⟨he, hi⟩ := processCtPart_equiv env creds hp
    simp [he, hi, ih.1, ih.2]

theorem processCtPart_invocations_shape (env : CtEnv) (creds : CtCredentials) (p : CtPart) :
    ∀ inv ∈ (processCtPart env creds p).invocations,
      inv.credentials = creds ∧ ∀ kv ∈ inv.input, kv.1 ≠ "credentials" := by
  intro inv hinv
  cases p with
  | text t => simp [processCtPart] at hinv
  | tool tp =>
    simp only [processCtPart] at hinv
    split at hinv
    · simp at hinv
    · split at hinv
      · split at hinv
        · simp at hinv
          subst hinv
          refine ⟨rfl, ?_⟩
          intro kv hkv
          have := List.mem_filter.mp hkv
          exact of_decide_eq_true this.2
        · simp at hinv
      · split at hinv
        · simp at hinv
        · simp at hinv

/-- C4: runs of the gateway processToolCalls on conversations that differ
only in the credential-shaped fields embedded in tool inputs write the same
lifecycle events and perform exactly the same executor invocations; every
invocation executes with the input minus its `credentials` property and
with the credential set of the current request. -/
theorem processToolCallsCt_credential_stripping (env : CtEnv) (creds : CtCredentials)
    (pre₁ pre₂ : List CtMessage) (last₁ last₂ : CtMessage) (ps₁ ps₂ : List CtPart)
    (h₁ : last₁.parts = some ps₁) (h₂ : last₂.parts = some ps₂)
    (h : List.Forall₂ CtPartEquiv ps₁ ps₂) :
    (processToolCallsCt env creds (pre₁ ++ [last₁])).2.1 =
      (processToolCallsCt env creds (pre₂ ++ [last₂])).2.1 ∧
    (processToolCallsCt env creds (pre₁ ++ [last₁])).2.2 =
      (processToolCallsCt env creds (pre₂ ++ [last₂])).2.2 ∧
    ∀ inv ∈ (processToolCallsCt env creds (pre₁ ++ [last₁])).2.2,
      inv.credentials = creds ∧ ∀ kv ∈ inv.input, kv.1 ≠ "credentials" := by
  obtain ⟨he, hi⟩ := processCt_list_equiv env creds h
  simp only [processToolCallsCt, List.getLast?_concat, h₁, h₂]
  refine ⟨he, hi, ?_⟩
  intro inv hinv
  rw [List.mem_flatMap] at hinv
  obtain ⟨res, hres, hmem⟩ := hinv
  rw [List.mem_map] at hres
  obtain ⟨p, _, rfl⟩ := hres
  exact processCtPart_invocations_shape env creds p inv hmem

/-- Witness for C4 at two concrete single-part conversations that differ
only in the embedded credentials field. -/
theorem processToolCallsCt_credential_stripping_witness :
    (CtMessage.mk "assistant" (some [ctPartA])).parts = some [ctPartA] ∧
    (CtMessage.mk "assistant" (some [ctPartB])).parts = some [ctPartB] ∧
    ((processToolCallsCt ctEnvW ctCredsW ([] ++ [CtMessage.mk "assistant" (some [ctPartA])])).2.1 =
      (processToolCallsCt ctEnvW ctCredsW ([] ++ [CtMessage.mk "assistant" (some [ctPartB])])).2.1 ∧
    (processToolCallsCt ctEnvW ctCredsW ([] ++ [CtMessage.mk "assistant" (some [ctPartA])])).2.2 =
      (processToolCallsCt ctEnvW ctCredsW ([] ++ [CtMessage.mk "assistant" (some [ctPartB])])).2.2 ∧
    ∀ inv ∈ (processToolCallsCt ctEnvW ctCredsW
        ([] ++ [CtMessage.mk "assistant" (some [ctPartA])])).2.2,
      inv.credentials = ctCredsW ∧ ∀ kv ∈ inv.input, kv.1 ≠ "credentials") :=
  ⟨rfl, rfl,
    processToolCallsCt_credential_stripping ctEnvW ctCredsW [] [] _ _ [ctPartA] [ctPartB]
      rfl rfl
      (List.Forall₂.cons
        (CtPartEquiv.tool _ _ rfl rfl rfl rfl rfl)
        List.Forall₂.nil)⟩

/-! ## C8: connect and credential identity -/

/-- Counterexample to C8 as stated: after connecting with credsA, a connect
request with credsB - the same clientId but a different projectKey, hence a
different credential identity tuple - is a complete no-op: no teardown, no
second underlying connection, and the client remains connected with the old
credential set, because connect compares only the clientId field. -/
theorem connect_identity_counterexample :
    MCPClientState.connect mcpEnvW MCPClientState.init (some credsA) =
      (stConnectedA, [MCPEvent.connectUnderlying credsA], .ok ()) ∧
    MCPClientState.connect mcpEnvW stConnectedA (some credsB) =
      (stConnectedA, [], .ok ()) ∧
    credsB ≠ credsA := by
  refine ⟨rfl, rfl, by decide⟩

/-- C8 as amended: the credential identity that connect compares is the
clientId field alone.  While connected (with an open underlying client), a
connect request whose clientId equals the current one is a no-op performing
no underlying connection; a request with a different clientId first tears
the existing connection down and then establishes the new one. -/
theorem connect_identity_amended (env : MCPEnv) (st : MCPClientState)
    (creds : MCPCredentials) (ts : List String)
    (hconn : st.connected = true) (hopen : st.clientOpen = true) :
    (jsEqClientId st.clientId (some creds) = true →
      MCPClientState.connect env st (some creds) = (st, [], .ok ())) ∧
    (jsEqClientId st.clientId (some creds) = false →
      firstMissingField creds = none →
      env.createClient creds = .ok () →
      env.listTools creds = .ok ts →
      MCPClientState.connect env st (some creds) =
        (⟨true, some ts, true, some creds, some creds.clientId⟩,
         [MCPEvent.disconnectUnderlying, MCPEvent.connectUnderlying creds], .ok ())) := by
  constructor
  · intro hsame
    simp [MCPClientState.connect, Option.or, hconn, hsame]
  · intro hdiff hfields hcreate hlist
    simp [MCPClientState.connect, Option.or, hconn, hdiff, hopen,
      MCPClientState.disconnect, MCPClientState.connectWith, hfields, hcreate, hlist]

/-- Witness for the amended C8: connecting again with credsA is a no-op,
and connecting with credsC (a different clientId) tears down and
reconnects. -/
theorem connect_identity_amended_witness :
    stConnectedA.connected = true ∧
    stConnectedA.clientOpen = true ∧
    jsEqClientId stConnectedA.clientId (some credsA) = true ∧
    MCPClientState.connect mcpEnvW stConnectedA (some credsA) =
      (stConnectedA, [], .ok ()) ∧
    jsEqClientId stConnectedA.clientId (some credsC) = false ∧
    MCPClientState.connect mcpEnvW stConnectedA (some credsC) =
      (⟨true, some ["products.read"], true, some credsC, some credsC.clientId⟩,
       [MCPEvent.disconnectUnderlying, MCPEvent.connectUnderlying credsC], .ok ()) :=
  ⟨rfl, rfl, by decide, (connect_identity_amended mcpEnvW stConnectedA credsA
      ["products.read"] rfl rfl).1 (by decide), by decide,
    (connect_identity_amended mcpEnvW stConnectedA credsC
      ["products.read"] rfl rfl).2 (by decide) rfl rfl rfl⟩

end Chatbot
